import Mathlib

/-!
Verification of the copy-trading core of the Sinfo_System repository:
the Master Node (change-detection publisher, `src/nodes/master.py`), the
Slave Node (signal executor, `src/nodes/slave.py`), the correlation store
access layer (`src/db/models.py`), the ZeroMQ bus subscriber
(`src/messaging/zmq_bus.py`), the symbol translator
(`src/utils/symbol_translator.py`) and the Launcher supervisory loop
(`src/launcher.py`).

Embedding conventions.  Python dictionaries are association lists
(insertion order, unique keys by construction of the operations), Python
sets of tickets are `Finset ℕ`, prices and volumes are `ℚ`, and the
MongoDB `trades` collection is a list of records in natural (insertion)
order, matching the `find_one` / `update_one` semantics of returning or
updating the first document in natural order (`src/db/models.py`).
Iteration over a Python `set` has no specified order, so the loops over
`opened` / `closed` take the enumeration as an explicit parameter and
theorems quantify over every enumeration.  Broker calls (`MetaTrader5`)
are an explicit environment of pure functions; logger calls are modelled
as emitted `(level, message)` pairs wherever a claim depends on them
(numeric formatting inside messages is elided); submitted orders are
collected in an `orders` output so "no order is sent" is expressible.
-/

namespace CopyTrading

/-- Log levels of the `logging` module as used by `setup_logger`. -/
inductive LogLevel where
  | info
  | warning
  | error
deriving DecidableEq, Repr

/-- A single log line: level and message. -/
abbrev LogEntry := LogLevel × String

/-- One position as reconstructed by `MasterNode.get_current_positions`
(`src/nodes/master.py` lines 75-87): the value dict built from a
`MetaTrader5` position tuple. -/
structure Position where
  ticket : Nat
  symbol : String
  type : Nat
  volume : ℚ
  price : ℚ
  sl : ℚ
  tp : ℚ
  time : Nat
deriving DecidableEq, Repr, Inhabited

/-- A wire-level signal as built by `Publisher.publish_open` /
`Publisher.publish_close` (`src/messaging/zmq_bus.py` lines 51-98). -/
inductive Signal where
  | Open (ticket : Nat) (symbol : String) (type : Nat) (volume price sl tp : ℚ)
  | Close (ticket : Nat) (symbol : String)
deriving DecidableEq, Repr

/-! ## Python `dict` keyed by ticket, as an association list -/

/-- The master's position dictionary `Dict[int, dict]`. -/
abbrev PosMap := List (Nat × Position)

/-- `d[t]` / `d.get(t)`: first (= unique) entry with key `t`. -/
def dlookup (t : Nat) : PosMap → Option Position
  | [] => none
  | (k, v) :: m => if k = t then some v else dlookup t m

/-- `set(d.keys())`. -/
def dkeys (m : PosMap) : Finset Nat := (m.map Prod.fst).toFinset

/-- `d[t] = p`: replace in place if the key exists, else append. -/
def dset (m : PosMap) (t : Nat) (p : Position) : PosMap :=
  if t ∈ dkeys m then m.map (fun x => if x.1 = t then (t, p) else x)
  else m ++ [(t, p)]

/-- `del d[t]`. -/
def derase (m : PosMap) (t : Nat) : PosMap := m.filter (fun x => x.1 ≠ t)

/-- The dict comprehension of `get_current_positions`
(`src/nodes/master.py` lines 75-87), keyed by `pos.ticket`. -/
def dict_of_positions (l : List Position) : PosMap :=
  l.foldl (fun m p => dset m p.ticket p) []

/-- `MasterNode.get_current_positions` (`src/nodes/master.py` lines
64-87): `positions_get()` returning `None` yields the empty dict, with
no logging. -/
def get_current_positions (positions : Option (List Position)) : PosMap :=
  match positions with
  | none => []
  | some l => dict_of_positions l

/-! ## Master Node (`src/nodes/master.py`) -/

/-- `MasterNode.detect_changes` (lines 89-105):
`opened = current_tickets - cached_tickets`,
`closed = cached_tickets - current_tickets`. -/
def detect_changes (cache current : PosMap) : Finset Nat × Finset Nat :=
  (dkeys current \ dkeys cache, dkeys cache \ dkeys current)

/-- The running state of one iteration of the `while` loop in
`MasterNode.run`: signals published so far, the ticket cache, and the
log lines emitted so far. -/
structure MState where
  signals : List Signal
  cache : PosMap
  logs : List LogEntry
deriving DecidableEq, Repr

/-- The Open signal built by `publish_open_signal` (lines 107-127) from
a position value dict. -/
def open_signal_of (p : Position) : Signal :=
  .Open p.ticket p.symbol p.type p.volume p.price p.sl p.tp

/-- `self._ticket_cache.get(ticket, {}).get('symbol', 'UNKNOWN')` in
`publish_close_signal` (lines 129-140). -/
def close_symbol (cache : PosMap) (t : Nat) : String :=
  match dlookup t cache with
  | some p => p.symbol
  | none => "UNKNOWN"

/-- Body of `for ticket in opened` (lines 163-166).  The Python
`current_positions[ticket]` access presumes `ticket ∈ current` (always
true for `ticket ∈ opened`); the `getD default` is unreachable there. -/
def open_step (current : PosMap) (st : MState) (t : Nat) : MState :=
  let p := (dlookup t current).getD default
  { signals := st.signals ++ [open_signal_of p]
    cache := dset st.cache t p
    logs := st.logs ++ [(LogLevel.info, "OPEN Signal | Ticket: " ++ toString p.ticket)] }

/-- Body of `for ticket in closed` (lines 169-171). -/
def close_step (st : MState) (t : Nat) : MState :=
  let symbol := close_symbol st.cache t
  { signals := st.signals ++ [Signal.Close t symbol]
    cache := derase st.cache t
    logs := st.logs ++
      [(LogLevel.info, "CLOSE Signal | Ticket: " ++ toString t ++ " | Symbol: " ++ symbol)] }

/-- One iteration of the `while` loop in `MasterNode.run` (lines
157-173) given the current position dict, parameterized by the
iteration orders of the Python sets `opened` and `closed`. -/
def process_cycle (cache current : PosMap) (openOrder closeOrder : List Nat) : MState :=
  closeOrder.foldl close_step (openOrder.foldl (open_step current) ⟨[], cache, []⟩)

/-- One poll cycle: fetch positions (possibly failing), then process. -/
def poll_cycle (cache : PosMap) (positions : Option (List Position))
    (openOrder closeOrder : List Nat) : MState :=
  process_cycle cache (get_current_positions positions) openOrder closeOrder

/-- A canonical enumeration of a ticket set, used for whole-run traces
(by order-independence any enumeration yields the same signal
multiset). -/
def canon_enum (s : Finset Nat) : List Nat := s.sort (· ≤ ·)

/-- One cycle of `MasterNode.run` with canonical set enumerations. -/
def run_cycle (cache : PosMap) (positions : Option (List Position)) : MState :=
  let current := get_current_positions positions
  let oc := detect_changes cache current
  process_cycle cache current (canon_enum oc.1) (canon_enum oc.2)

/-- The signals published over a sequence of successful polls, and the
final cache. -/
def run_trace (cache : PosMap) : List (List Position) → List Signal × PosMap
  | [] => ([], cache)
  | p :: rest =>
    let st := run_cycle cache (some p)
    let r := run_trace st.cache rest
    (st.signals ++ r.1, r.2)

/-- `MasterNode.run` (lines 142-173) with a successful startup poll:
initial cache population publishes nothing (lines 150-152), then one
cycle per poll. -/
def master_run (init : List Position) (polls : List (List Position)) :
    List Signal × PosMap :=
  run_trace (get_current_positions (some init)) polls

/-- "The broker never reuses a ticket": once `t` is absent from a poll,
it is absent from every later poll. -/
def no_reappear (t : Nat) : List (List Position) → Bool
  | [] => true
  | p :: rest =>
    (decide (t ∈ dkeys (dict_of_positions p)) ||
      rest.all (fun q => decide (t ∉ dkeys (dict_of_positions q)))) &&
    no_reappear t rest

/-- Is this an Open signal for ticket `t`? -/
def is_open_for (t : Nat) : Signal → Bool
  | .Open t' _ _ _ _ _ _ => t' == t
  | .Close _ _ => false

/-- Is this a Close signal for ticket `t`? -/
def is_close_for (t : Nat) : Signal → Bool
  | .Open _ _ _ _ _ _ _ => false
  | .Close t' _ => t' == t

/-! ## Symbol translator (`src/utils/symbol_translator.py`) -/

/-- `SymbolTranslator.__init__`: the manual override map (a Python dict
keyed by master symbol; first-match lookup) and the broker-specific
suffix. -/
structure SymbolTranslator where
  symbol_map : List (String × String)
  suffix : String

/-- `SymbolTranslator.translate` (`src/utils/symbol_translator.py` lines
26-45): explicit mapping first, otherwise append the suffix. -/
def translate (tr : SymbolTranslator) (master_symbol : String) : String :=
  match tr.symbol_map.lookup master_symbol with
  | some mapped => mapped
  | none => master_symbol ++ tr.suffix

/-! ## Correlation store (`src/db/models.py`, `TradeModel`) -/

/-- One document of the `trades` collection
(`TradeModel.create_mapping`, lines 99-131). -/
structure TradeRecord where
  master_ticket : Nat
  slave_ticket : Nat
  slave_name : String
  symbol : String
  direction : String
  status : String
  open_time : Nat
  close_time : Option Nat
deriving DecidableEq, Repr

/-- The Mongo filter `{'master_ticket': mt, 'slave_name': name,
'status': 'OPEN'}` used by `get_slave_ticket` and `close_trade`. -/
def openMatch (mt : Nat) (name : String) (r : TradeRecord) : Bool :=
  r.master_ticket == mt && r.slave_name == name && r.status == "OPEN"

/-- The pair filter `{'master_ticket': mt, 'slave_name': name}`. -/
def pairMatch (mt : Nat) (name : String) (r : TradeRecord) : Bool :=
  r.master_ticket == mt && r.slave_name == name

/-- `TradeModel.create_mapping` (lines 99-131): unconditional
`insert_one` of a new OPEN document. -/
def create_mapping (store : List TradeRecord) (master_ticket slave_ticket : Nat)
    (slave_name symbol direction : String) (now : Nat) : List TradeRecord :=
  store ++ [{ master_ticket := master_ticket, slave_ticket := slave_ticket,
              slave_name := slave_name, symbol := symbol, direction := direction,
              status := "OPEN", open_time := now, close_time := none }]

/-- `TradeModel.get_slave_ticket` (lines 133-150): `find_one` on the
OPEN filter, returning the `slave_ticket` field. -/
def get_slave_ticket (store : List TradeRecord) (mt : Nat) (name : String) : Option Nat :=
  (store.find? (openMatch mt name)).map (fun doc => doc.slave_ticket)

/-- `TradeModel.close_trade` (lines 152-177): `update_one` on the OPEN
filter, setting `status = CLOSED` and `close_time`; the Bool is
`modified_count > 0`. -/
def close_trade (now : Nat) (mt : Nat) (name : String) :
    List TradeRecord → List TradeRecord × Bool
  | [] => ([], false)
  | r :: rest =>
    if openMatch mt name r then
      ({ r with status := "CLOSED", close_time := some now } :: rest, true)
    else
      let res := close_trade now mt name rest
      (r :: res.1, res.2)

/-! ## Slave Node (`src/nodes/slave.py`) -/

/-- `MetaTrader5` constants used by the Slave Node. -/
def ORDER_TYPE_BUY : Nat := 0

def ORDER_TYPE_SELL : Nat := 1

def POSITION_TYPE_BUY : Nat := 0

def TRADE_ACTION_DEAL : Nat := 1

def TRADE_RETCODE_DONE : Nat := 10009

def ORDER_TIME_GTC : Nat := 0

def ORDER_FILLING_IOC : Nat := 1

def DEFAULT_MAGIC_NUMBER : Nat := 234000

/-- A quote from `mt5.symbol_info_tick`. -/
structure Tick where
  ask : ℚ
  bid : ℚ
deriving DecidableEq, Repr

/-- A live position on the slave broker (`mt5.positions_get(ticket=...)`
element). -/
structure BrokerPosition where
  ticket : Nat
  symbol : String
  type : Nat
  volume : ℚ
deriving DecidableEq, Repr

/-- The result object of `mt5.order_send`. -/
structure OrderResult where
  retcode : Nat
  order : Nat
  price : ℚ
  comment : String
deriving DecidableEq, Repr

/-- A trade request dict passed to `mt5.order_send` (optional fields are
the keys absent from one of the two request shapes). -/
structure OrderRequest where
  action : Nat
  symbol : String
  volume : ℚ
  type : Nat
  price : ℚ
  sl : Option ℚ
  tp : Option ℚ
  position : Option Nat
  deviation : ℚ
  magic : Nat
  comment : String
  type_time : Nat
  type_filling : Nat
deriving DecidableEq, Repr

/-- The broker environment seen by one Slave Node call: the
`MetaTrader5` functions it invokes, plus the current wall-clock time
used by the store layer's `datetime.utcnow()`. -/
structure SlaveEnv where
  symbol_select : String → Bool
  symbol_info_tick : String → Option Tick
  symbol_info_point : String → Option ℚ
  order_send : OrderRequest → Option OrderResult
  positions_get : Nat → List BrokerPosition
  now : Nat

/-- The per-account configuration loaded in `SlaveNode.__init__`
(lines 26-55). -/
structure SlaveCfg where
  name : String
  translator : SymbolTranslator
  slippage_tolerance : ℚ

/-- `SlaveNode.check_slippage` (lines 78-116).  Its internal logger
calls (error on missing tick/symbol info, warning on exceeded slippage)
are not modelled; no claim depends on them. -/
def check_slippage (env : SlaveEnv) (cfg : SlaveCfg) (symbol : String)
    (master_price : ℚ) (order_type : Nat) : Bool :=
  match env.symbol_info_tick symbol with
  | none => false
  | some tick =>
    let current_price := if order_type = 0 then tick.ask else tick.bid
    match env.symbol_info_point symbol with
    | none => false
    | some point =>
      let price_diff := |current_price - master_price|
      let slippage_points := price_diff / point
      if slippage_points > cfg.slippage_tolerance then false else true

/-- The outcome of `SlaveNode.execute_open`: the returned slave ticket
(or `None`), the store afterwards, the orders submitted, and the log
lines emitted by `execute_open` itself. -/
structure OpenResult where
  ticket : Option Nat
  store : List TradeRecord
  orders : List OrderRequest
  logs : List LogEntry
deriving DecidableEq, Repr

/-- The signal dict fields consumed by `execute_open`. -/
structure OpenSignal where
  ticket : Nat
  symbol : String
  type : Nat
  volume : ℚ
  price : ℚ
  sl : ℚ
  tp : ℚ
deriving DecidableEq, Repr

/-- `SlaveNode.execute_open` (lines 118-198).  The second
`symbol_info_tick` fetch (line 146) has no `None` check in the source; a
passing `check_slippage` implies it is present, so the `getD` default is
unreachable on that path. -/
def execute_open (env : SlaveEnv) (cfg : SlaveCfg) (store : List TradeRecord)
    (signal : OpenSignal) : OpenResult :=
  let slave_symbol := translate cfg.translator signal.symbol
  if ¬ env.symbol_select slave_symbol then
    { ticket := none, store := store, orders := [],
      logs := [(.error, "Failed to select symbol " ++ slave_symbol)] }
  else if ¬ check_slippage env cfg slave_symbol signal.price signal.type then
    { ticket := none, store := store, orders := [], logs := [] }
  else
    let tick := (env.symbol_info_tick slave_symbol).getD ⟨0, 0⟩
    let price := if signal.type = 0 then tick.ask else tick.bid
    let mt5_order_type := if signal.type = 0 then ORDER_TYPE_BUY else ORDER_TYPE_SELL
    let request : OrderRequest :=
      { action := TRADE_ACTION_DEAL, symbol := slave_symbol, volume := signal.volume,
        type := mt5_order_type, price := price, sl := some signal.sl,
        tp := some signal.tp, position := none, deviation := cfg.slippage_tolerance,
        magic := DEFAULT_MAGIC_NUMBER, comment := "Copy:" ++ toString signal.ticket,
        type_time := ORDER_TIME_GTC, type_filling := ORDER_FILLING_IOC }
    match env.order_send request with
    | none =>
      { ticket := none, store := store, orders := [request],
        logs := [(.error, "Order send failed - no result returned")] }
    | some result =>
      if result.retcode ≠ TRADE_RETCODE_DONE then
        { ticket := none, store := store, orders := [request],
          logs := [(.error, "Order failed | Code: " ++ toString result.retcode)] }
      else
        let direction := if signal.type = 0 then "BUY" else "SELL"
        { ticket := some result.order
          store := create_mapping store signal.ticket result.order cfg.name
            slave_symbol direction env.now
          orders := [request]
          logs := [(.info, "EXECUTED | Ticket: " ++ toString result.order)] }

/-- The outcome of `SlaveNode.execute_close`. -/
structure CloseResult where
  ok : Bool
  store : List TradeRecord
  orders : List OrderRequest
  logs : List LogEntry
deriving DecidableEq, Repr

/-- `SlaveNode.execute_close` (lines 200-278). -/
def execute_close (env : SlaveEnv) (cfg : SlaveCfg) (store : List TradeRecord)
    (master_ticket : Nat) : CloseResult :=
  match get_slave_ticket store master_ticket cfg.name with
  | none =>
    { ok := false, store := store, orders := [],
      logs := [(.warning, "No mapping found for master ticket " ++ toString master_ticket)] }
  | some slave_ticket =>
    match env.positions_get slave_ticket with
    | [] =>
      { ok := false
        store := (close_trade env.now master_ticket cfg.name store).1
        orders := []
        logs := [(.warning, "Position " ++ toString slave_ticket ++ " not found")] }
    | position :: _ =>
      let symbol := position.symbol
      let volume := position.volume
      let tick := (env.symbol_info_tick symbol).getD ⟨0, 0⟩
      let close_type :=
        if position.type = POSITION_TYPE_BUY then ORDER_TYPE_SELL else ORDER_TYPE_BUY
      let price := if position.type = POSITION_TYPE_BUY then tick.bid else tick.ask
      let request : OrderRequest :=
        { action := TRADE_ACTION_DEAL, symbol := symbol, volume := volume,
          type := close_type, price := price, sl := none, tp := none,
          position := some slave_ticket, deviation := cfg.slippage_tolerance,
          magic := DEFAULT_MAGIC_NUMBER, comment := "Close:" ++ toString master_ticket,
          type_time := ORDER_TIME_GTC, type_filling := ORDER_FILLING_IOC }
      match env.order_send request with
      | none =>
        { ok := false, store := store, orders := [request],
          logs := [(.error, "Close order failed - no result returned")] }
      | some result =>
        if result.retcode ≠ TRADE_RETCODE_DONE then
          { ok := false, store := store, orders := [request],
            logs := [(.error, "Close failed | Code: " ++ toString result.retcode)] }
        else
          { ok := true
            store := (close_trade env.now master_ticket cfg.name store).1
            orders := [request]
            logs := [(.info, "CLOSED | Ticket: " ++ toString slave_ticket)] }

/-- `SlaveNode.process_signal` (lines 280-294), store component only;
each signal is processed under its own broker environment. -/
def process_signal (cfg : SlaveCfg) (store : List TradeRecord)
    (es : SlaveEnv × Signal) : List TradeRecord :=
  match es.2 with
  | .Open t sym ty vol pr sl tp =>
    (execute_open es.1 cfg store ⟨t, sym, ty, vol, pr, sl, tp⟩).store
  | .Close t _ => (execute_close es.1 cfg store t).store

/-- A whole sequence of signals replayed against a Slave. -/
def process_signals (cfg : SlaveCfg) (store : List TradeRecord)
    (sigs : List (SlaveEnv × Signal)) : List TradeRecord :=
  sigs.foldl (process_signal cfg) store

/-- The master tickets of the Open signals in a sequence. -/
def open_tickets (sigs : List (SlaveEnv × Signal)) : List Nat :=
  sigs.filterMap (fun es => match es.2 with
    | .Open t _ _ _ _ _ _ => some t
    | .Close _ _ => none)

/-! ## Bus subscriber (`src/messaging/zmq_bus.py`) -/

/-- Split a character list at the first space, if any. -/
def split_at_space : List Char → List Char × Option (List Char)
  | [] => ([], none)
  | c :: cs =>
    if c = ' ' then ([], some cs)
    else
      let r := split_at_space cs
      (c :: r.1, r.2)

/-- Python `message.split(' ', 1)`: split at the first space only;
without a space the result is the one-element list `[message]`. -/
def split_once (s : String) : List String :=
  match split_at_space s.data with
  | (pre, none) => [String.mk pre]
  | (pre, some post) => [String.mk pre, String.mk post]

/-- `Subscriber.receive` (lines 145-167) on a received text frame.
`json.loads` is external; it is passed in as an oracle returning `none`
exactly when it would raise `JSONDecodeError` (which `receive` catches).
The second component is the log lines `receive` emits. -/
def receive {α : Type} (jsonLoads : String → Option α) (message : String) :
    Option α × List LogEntry :=
  match split_once message with
  | [_topic, payload] =>
    match jsonLoads payload with
    | some p => (some p, [])
    | none => (none, [])
  | _ => (none, [])

/-! ## Launcher supervisory loop (`src/launcher.py`) -/

/-- The warning logged when a child exits (lines 158-161). -/
def exit_msg (name : String) (code : Int) : String :=
  "Process " ++ name ++ " exited with code " ++ toString code

/-- One pass of `Launcher.monitor` over the supervised table (lines
154-163): `pollRes name` is `process.poll()` — `some code` iff the child
has exited.  Children that exited are logged and dropped; nothing is
ever spawned. -/
def monitor_step (pollRes : String → Option Int) (procs : List String) :
    List String × List LogEntry :=
  procs.foldl
    (fun st name =>
      match pollRes name with
      | some code => (st.1, st.2 ++ [(LogLevel.warning, exit_msg name code)])
      | none => (st.1 ++ [name], st.2))
    ([], [])

/-- The supervised sets over a run of the monitor loop, one poll
environment per iteration; the head is the initial table. -/
def monitor_states (pollSeq : List (String → Option Int)) (procs : List String) :
    List (List String) :=
  match pollSeq with
  | [] => [procs]
  | f :: rest => procs :: monitor_states rest (monitor_step f procs).1

/-! ## Concrete fixtures used by witnesses and counterexamples -/

/-- A sample master position (spec scenario 1). -/
def examplePos : Position :=
  { ticket := 555, symbol := "EURUSD", type := 0, volume := 1/10,
    price := 11/10, sl := 1, tp := 6/5, time := 0 }

/-- A second sample position. -/
def examplePos2 : Position :=
  { ticket := 777, symbol := "XAUUSD", type := 1, volume := 1,
    price := 2000, sl := 0, tp := 0, time := 3 }

/-- A slave configuration matching spec scenario 1 ("Apex"). -/
def exampleCfg : SlaveCfg :=
  { name := "Apex", translator := { symbol_map := [], suffix := ".c" },
    slippage_tolerance := 50 }

/-- A broker environment where everything succeeds: quotes at the given
ask/bid, point `1/100000`, orders filled with ticket `9001`. -/
def happyEnv (ask bid : ℚ) : SlaveEnv :=
  { symbol_select := fun _ => true
    symbol_info_tick := fun _ => some ⟨ask, bid⟩
    symbol_info_point := fun _ => some (1/100000)
    order_send := fun _ => some ⟨TRADE_RETCODE_DONE, 9001, ask, ""⟩
    positions_get := fun _ => [⟨9001, "EURUSD.c", 0, 1/10⟩]
    now := 42 }

/-- A broker environment where the mirrored position is gone but orders
would succeed if sent. -/
def goneEnv : SlaveEnv :=
  { happyEnv (11/10) (11/10) with positions_get := fun _ => [] }

/-- A decoder oracle that always fails, standing for a payload whose
JSON does not parse. -/
def failDecode : String → Option Unit := fun _ => none

/-- An OPEN correlation record as created after spec scenario 1. -/
def exampleRecord : TradeRecord :=
  { master_ticket := 555, slave_ticket := 9001, slave_name := "Apex",
    symbol := "EURUSD.c", direction := "BUY", status := "OPEN",
    open_time := 1, close_time := none }

/-- The Open signal of spec scenario 1. -/
def exampleSignal : OpenSignal :=
  { ticket := 555, symbol := "EURUSD", type := 0, volume := 1/10,
    price := 11/10, sl := 1, tp := 6/5 }

/-- A liveness poll in which only child "A" has exited (code 3). -/
def examplePoll : String → Option Int :=
  fun n => if n = "A" then some 3 else none

end CopyTrading

namespace CopyTrading

/-! ## Association-list dictionary lemmas -/

theorem dlookup_mem {t : Nat} {m : PosMap} {p : Position}
    (h : dlookup t m = some p) : (t, p) ∈ m := by
  induction m with
  | nil => simp [dlookup] at h
  | cons kv m ih =>
    rw [dlookup] at h
    split at h
    · rename_i hk
      cases kv
      simp_all
    · exact List.mem_cons_of_mem _ (ih h)

theorem mem_dkeys_cons {t k : Nat} {v : Position} {m : PosMap} :
    t ∈ dkeys ((k, v) :: m) ↔ t = k ∨ t ∈ dkeys m := by
  simp [dkeys]

theorem dlookup_eq_none_iff {t : Nat} {m : PosMap} :
    dlookup t m = none ↔ t ∉ dkeys m := by
  induction m with
  | nil => simp [dlookup, dkeys]
  | cons kv m ih =>
    cases kv with
    | mk k v =>
      rw [dlookup, mem_dkeys_cons]
      by_cases hk : k = t
      · simp [hk]
      · rw [if_neg hk, ih]
        constructor
        · intro h hor
          rcases hor with h1 | h2
          · exact hk h1.symm
          · exact h h2
        · intro h h2
          exact h (Or.inr h2)

theorem mem_dkeys_iff {t : Nat} {m : PosMap} :
    t ∈ dkeys m ↔ ∃ p, dlookup t m = some p := by
  constructor
  · intro h
    cases hd : dlookup t m with
    | none => exact absurd h (dlookup_eq_none_iff.mp hd)
    | some p => exact ⟨p, rfl⟩
  · rintro ⟨p, hp⟩
    by_contra h
    rw [← dlookup_eq_none_iff] at h
    simp [h] at hp

theorem dlookup_map_replace {t t' : Nat} {p : Position} (h : t' ≠ t) (m : PosMap) :
    dlookup t' (m.map (fun x => if x.1 = t then (t, p) else x)) = dlookup t' m := by
  induction m with
  | nil => rfl
  | cons kv m ih =>
    cases kv with
    | mk k v =>
      rw [List.map_cons]
      dsimp only
      by_cases hk : k = t
      · rw [if_pos hk, dlookup, dlookup, if_neg (Ne.symm h),
          if_neg (show ¬k = t' from fun hc => Ne.symm h (hk.symm.trans hc))]
        exact ih
      · rw [if_neg hk, dlookup, dlookup]
        by_cases hkt : k = t'
        · rw [if_pos hkt, if_pos hkt]
        · rw [if_neg hkt, if_neg hkt]
          exact ih

theorem dlookup_append_single {t t' : Nat} {p : Position} (h : t' ≠ t) (m : PosMap) :
    dlookup t' (m ++ [(t, p)]) = dlookup t' m := by
  induction m with
  | nil => simp [dlookup, Ne.symm h]
  | cons kv m ih =>
    cases kv with
    | mk k v =>
      rw [List.cons_append, dlookup, dlookup]
      by_cases hk : k = t'
      · rw [if_pos hk, if_pos hk]
      · rw [if_neg hk, if_neg hk]
        exact ih

theorem dlookup_dset_ne {t t' : Nat} {m : PosMap} {p : Position} (h : t' ≠ t) :
    dlookup t' (dset m t p) = dlookup t' m := by
  rw [dset]
  split
  · exact dlookup_map_replace h m
  · exact dlookup_append_single h m

theorem dlookup_derase_ne {t t' : Nat} {m : PosMap} (h : t' ≠ t) :
    dlookup t' (derase m t) = dlookup t' m := by
  induction m with
  | nil => rfl
  | cons kv m ih =>
    rw [derase, List.filter]
    cases kv with
    | mk k v =>
      by_cases hk : k = t
      · simp only [hk, dlookup]
        rw [if_neg (Ne.symm h), show (decide ¬(t, v).1 = t) = false by simp]
        exact ih
      · rw [show (decide ¬(k, v).1 = t) = true by simpa using hk]
        rw [dlookup, dlookup]
        split
        · rfl
        · exact ih

theorem dlookup_derase_self {t : Nat} {m : PosMap} :
    dlookup t (derase m t) = none := by
  rw [dlookup_eq_none_iff]
  intro h
  rw [mem_dkeys_iff] at h
  obtain ⟨p, hp⟩ := h
  have := dlookup_mem hp
  rw [derase, List.mem_filter] at this
  simp at this

theorem foldl_dset_coherent (l : List Position) (m : PosMap)
    (hm : ∀ kv ∈ m, (kv.2).ticket = kv.1) :
    ∀ kv ∈ l.foldl (fun m p => dset m p.ticket p) m, (kv.2).ticket = kv.1 := by
  induction l generalizing m with
  | nil => exact hm
  | cons q l ih =>
    rw [List.foldl_cons]
    apply ih
    intro kv hkv
    rw [dset] at hkv
    split at hkv
    · rw [List.mem_map] at hkv
      obtain ⟨x, hx, hxe⟩ := hkv
      by_cases hx1 : x.1 = q.ticket
      · rw [if_pos hx1] at hxe
        subst hxe; rfl
      · rw [if_neg hx1] at hxe
        exact hxe ▸ hm x hx
    · rw [List.mem_append] at hkv
      rcases hkv with h1 | h2
      · exact hm kv h1
      · simp at h2
        subst h2; rfl

/-- Every value in a dict built by `dict_of_positions` records its own
key as its `ticket` field. -/
theorem dict_of_positions_coherent {l : List Position} {t : Nat} {p : Position}
    (h : dlookup t (dict_of_positions l) = some p) : p.ticket = t :=
  foldl_dset_coherent l [] (by simp) (t, p) (dlookup_mem h)

/-! ## C5: translation precedence -/

/-- C5: if the symbol map has an entry for X, `translate X` is the
mapped value for every suffix; otherwise it is X with the suffix
appended. -/
theorem translate_precedence (m : List (String × String)) (sfx : String) (X : String) :
    (∀ v, m.lookup X = some v →
      ∀ sfx', translate ⟨m, sfx⟩ X = v ∧ translate ⟨m, sfx'⟩ X = v) ∧
    (m.lookup X = none → translate ⟨m, sfx⟩ X = X ++ sfx) := by
  constructor
  · intro v hv sfx'
    constructor <;> simp [translate, hv]
  · intro hn
    simp [translate, hn]

/-- C5 witness: spec scenario 3, `symbol_map={"XAUUSD":"GOLD"}`,
`suffix=".pro"`. -/
theorem translate_precedence_witness :
    ([("XAUUSD", "GOLD")].lookup "XAUUSD" = some "GOLD" ∧
      translate ⟨[("XAUUSD", "GOLD")], ".pro"⟩ "XAUUSD" = "GOLD" ∧
      translate ⟨[("XAUUSD", "GOLD")], ".c"⟩ "XAUUSD" = "GOLD") ∧
    ([("XAUUSD", "GOLD")].lookup "EURUSD" = none ∧
      translate ⟨[("XAUUSD", "GOLD")], ".pro"⟩ "EURUSD" = "EURUSD.pro") := by
  refine ⟨⟨by decide, ?_, ?_⟩, ⟨by decide, ?_⟩⟩
  · exact ((translate_precedence [("XAUUSD", "GOLD")] ".pro" "XAUUSD").1 "GOLD"
      (by decide) ".pro").1
  · exact ((translate_precedence [("XAUUSD", "GOLD")] ".pro" "XAUUSD").1 "GOLD"
      (by decide) ".c").2
  · exact (translate_precedence [("XAUUSD", "GOLD")] ".pro" "EURUSD").2 (by decide)

/-! ## Master cycle structure lemmas -/

theorem open_fold_signals (current : PosMap) (st : MState) (l : List Nat) :
    (l.foldl (open_step current) st).signals =
      st.signals ++ l.map (fun t => open_signal_of ((dlookup t current).getD default)) := by
  induction l generalizing st with
  | nil => simp
  | cons t l ih =>
    rw [List.foldl_cons, ih]
    simp [open_step, List.append_assoc]

theorem open_fold_cache (current : PosMap) (st : MState) (l : List Nat) :
    (l.foldl (open_step current) st).cache =
      l.foldl (fun c t => dset c t ((dlookup t current).getD default)) st.cache := by
  induction l generalizing st with
  | nil => rfl
  | cons t l ih =>
    rw [List.foldl_cons, List.foldl_cons, ih]
    rfl

theorem open_fold_logs_info (current : PosMap) (l : List Nat) :
    ∀ st : MState, (∀ e ∈ st.logs, e.1 = LogLevel.info) →
      ∀ e ∈ (l.foldl (open_step current) st).logs, e.1 = LogLevel.info := by
  induction l with
  | nil => intro st h; exact h
  | cons t l ih =>
    intro st h
    rw [List.foldl_cons]
    apply ih
    intro e he
    simp only [open_step] at he
    rw [List.mem_append] at he
    rcases he with h1 | h2
    · exact h e h1
    · simp at h2
      simp [h2]

theorem dlookup_foldl_dset {l : List Nat} {t : Nat} (f : Nat → Position) (ht : t ∉ l) :
    ∀ c : PosMap, dlookup t (l.foldl (fun c t' => dset c t' (f t')) c) = dlookup t c := by
  induction l with
  | nil => intro c; rfl
  | cons a l ih =>
    intro c
    rw [List.foldl_cons, ih (fun h => ht (List.mem_cons_of_mem a h))]
    exact dlookup_dset_ne (fun h => ht (h ▸ List.mem_cons_self a l))

theorem close_symbol_congr {a b : PosMap} {t : Nat} (h : dlookup t a = dlookup t b) :
    close_symbol a t = close_symbol b t := by
  rw [close_symbol, close_symbol, h]

theorem close_fold_signals (c₀ : PosMap) :
    ∀ l : List Nat, l.Nodup → ∀ st : MState,
      (∀ t ∈ l, dlookup t st.cache = dlookup t c₀) →
      (l.foldl close_step st).signals =
        st.signals ++ l.map (fun t => Signal.Close t (close_symbol c₀ t)) := by
  intro l
  induction l with
  | nil =>
    intro _ st _
    simp
  | cons t l ih =>
    intro hnd st hc
    have hl2 := List.nodup_cons.mp hnd
    have hc' : ∀ t' ∈ l, dlookup t' (close_step st t).cache = dlookup t' c₀ := by
      intro t' ht'
      have hne : t' ≠ t := fun he => hl2.1 (he ▸ ht')
      have hce : (close_step st t).cache = derase st.cache t := rfl
      rw [hce, dlookup_derase_ne hne]
      exact hc t' (List.mem_cons_of_mem t ht')
    rw [List.foldl_cons, ih hl2.2 (close_step st t) hc']
    have hsym : close_symbol st.cache t = close_symbol c₀ t :=
      close_symbol_congr (hc t (List.mem_cons_self t l))
    simp [close_step, hsym, List.append_assoc]

theorem close_fold_cache (l : List Nat) :
    ∀ st : MState, (l.foldl close_step st).cache = l.foldl derase st.cache := by
  induction l with
  | nil => intro st; rfl
  | cons t l ih =>
    intro st
    rw [List.foldl_cons, List.foldl_cons, ih]
    rfl

theorem close_fold_logs_info (l : List Nat) :
    ∀ st : MState, (∀ e ∈ st.logs, e.1 = LogLevel.info) →
      ∀ e ∈ (l.foldl close_step st).logs, e.1 = LogLevel.info := by
  induction l with
  | nil => intro st h; exact h
  | cons t l ih =>
    intro st h
    rw [List.foldl_cons]
    apply ih
    intro e he
    simp only [close_step] at he
    rw [List.mem_append] at he
    rcases he with h1 | h2
    · exact h e h1
    · simp at h2
      simp [h2]

theorem foldl_derase_nil_of_cover :
    ∀ (l : List Nat) (c : PosMap), (∀ kv ∈ c, kv.1 ∈ l) → l.foldl derase c = [] := by
  intro l
  induction l with
  | nil =>
    intro c h
    cases c with
    | nil => rfl
    | cons kv c => exact absurd (h kv (List.mem_cons_self kv c)) (List.not_mem_nil kv.1)
  | cons a l ih =>
    intro c h
    rw [List.foldl_cons]
    apply ih
    intro kv hkv
    rw [derase, List.mem_filter] at hkv
    have h1 := h kv hkv.1
    have h2 : kv.1 ≠ a := by simpa using hkv.2
    rcases List.mem_cons.mp h1 with he | hm
    · exact absurd he h2
    · exact hm

/-! ## C1: behaviour of a poll cycle when the broker query fails -/

/-- C1 counterexample: with one cached ticket and a failed broker query
(`positions_get()` is `None`), the cycle is not skipped: it publishes a
Close signal for the cached ticket and empties the cache, so the
claimed "no signal published and cache unchanged" is false. -/
theorem failed_poll_counterexample :
    (poll_cycle [(555, examplePos)] none [] [555]).signals =
        [Signal.Close 555 "EURUSD"] ∧
    (poll_cycle [(555, examplePos)] none [] [555]).cache = [] ∧
    ¬ ((poll_cycle [(555, examplePos)] none [] [555]).signals = [] ∧
        (poll_cycle [(555, examplePos)] none [] [555]).cache = [(555, examplePos)]) := by
  decide

/-- C1 (amended): when the broker position query fails, the failure is
not logged and the poll is not skipped; the current position set is
taken to be empty, so the cycle publishes no Open signal but publishes
one Close signal (with the cached symbol) per cached ticket, empties
the ticket cache, and emits only info-level log lines. -/
theorem failed_poll_behavior (cache : PosMap) (closeOrder : List Nat)
    (hnd : closeOrder.Nodup) (hfin : closeOrder.toFinset = dkeys cache) :
    (poll_cycle cache none [] closeOrder).signals =
        closeOrder.map (fun t => Signal.Close t (close_symbol cache t)) ∧
    (∀ t, ((poll_cycle cache none [] closeOrder).signals.countP (is_open_for t)) = 0) ∧
    (poll_cycle cache none [] closeOrder).cache = [] ∧
    (∀ e ∈ (poll_cycle cache none [] closeOrder).logs, e.1 = LogLevel.info) := by
  have hcyc : poll_cycle cache none [] closeOrder =
      closeOrder.foldl close_step ⟨[], cache, []⟩ := rfl
  have hsig : (poll_cycle cache none [] closeOrder).signals =
      closeOrder.map (fun t => Signal.Close t (close_symbol cache t)) := by
    rw [hcyc, close_fold_signals cache closeOrder hnd ⟨[], cache, []⟩ (fun t _ => rfl)]
    simp
  refine ⟨hsig, ?_, ?_, ?_⟩
  · intro t
    rw [hsig, List.countP_map]
    rw [List.countP_eq_zero]
    intro a _
    simp [is_open_for, Function.comp]
  · rw [hcyc, close_fold_cache]
    apply foldl_derase_nil_of_cover
    intro kv hkv
    have : kv.1 ∈ dkeys cache := by
      rw [dkeys, List.mem_toFinset]
      exact List.mem_map_of_mem Prod.fst hkv
    rw [← hfin, List.mem_toFinset] at this
    exact this
  · rw [hcyc]
    exact close_fold_logs_info closeOrder ⟨[], cache, []⟩ (by simp)

/-- The signals of one cycle, in iteration order: the Open signals for
`openOrder` then the Close signals for `closeOrder`. -/
theorem process_cycle_signals (cache current : PosMap) (oOrd cOrd : List Nat)
    (hcN : cOrd.Nodup) (hdisj : ∀ t ∈ cOrd, t ∉ oOrd) :
    (process_cycle cache current oOrd cOrd).signals =
      oOrd.map (fun t => open_signal_of ((dlookup t current).getD default)) ++
      cOrd.map (fun t => Signal.Close t (close_symbol cache t)) := by
  have hpres : ∀ t ∈ cOrd,
      dlookup t (oOrd.foldl (open_step current) ⟨[], cache, []⟩).cache =
        dlookup t cache := by
    intro t ht
    rw [open_fold_cache]
    exact dlookup_foldl_dset _ (hdisj t ht) cache
  rw [process_cycle, close_fold_signals cache cOrd hcN _ hpres, open_fold_signals]
  simp

/-- The cache after one cycle: entries for `openOrder` written, entries
for `closeOrder` erased. -/
theorem process_cycle_cache (cache current : PosMap) (oOrd cOrd : List Nat) :
    (process_cycle cache current oOrd cOrd).cache =
      cOrd.foldl derase
        (oOrd.foldl (fun c t => dset c t ((dlookup t current).getD default)) cache) := by
  rw [process_cycle, close_fold_cache, open_fold_cache]

/-- C1 witness for the amended theorem, at the counterexample's input. -/
theorem failed_poll_behavior_witness :
    ([555].Nodup ∧ [555].toFinset = dkeys [(555, examplePos)]) ∧
    (poll_cycle [(555, examplePos)] none [] [555]).signals =
        [555].map (fun t => Signal.Close t (close_symbol [(555, examplePos)] t)) ∧
    (poll_cycle [(555, examplePos)] none [] [555]).cache = [] :=
  ⟨⟨by decide, by decide⟩,
    (failed_poll_behavior [(555, examplePos)] [555] (by decide) (by decide)).1,
    (failed_poll_behavior [(555, examplePos)] [555] (by decide) (by decide)).2.2.1⟩

/-! ## C2: diff correctness of one successful poll cycle -/

/-- C2: for a successful poll with cached set A and current set B,
`opened = B \ A` and `closed = A \ B`; the cycle publishes exactly one
Open signal per opened ticket (carrying that ticket's polled fields) and
exactly one Close signal per closed ticket (carrying the last cached
symbol), and nothing else; the multiset of published signals does not
depend on the iteration order of the two sets. -/
theorem master_diff_correct (cache : PosMap) (l : List Position) (current : PosMap)
    (hcur : current = get_current_positions (some l))
    (oOrd cOrd oOrd' cOrd' : List Nat)
    (hoN : oOrd.Nodup) (hoF : oOrd.toFinset = (detect_changes cache current).1)
    (hcN : cOrd.Nodup) (hcF : cOrd.toFinset = (detect_changes cache current).2)
    (hoN' : oOrd'.Nodup) (hoF' : oOrd'.toFinset = (detect_changes cache current).1)
    (hcN' : cOrd'.Nodup) (hcF' : cOrd'.toFinset = (detect_changes cache current).2) :
    (detect_changes cache current).1 = dkeys current \ dkeys cache ∧
    (detect_changes cache current).2 = dkeys cache \ dkeys current ∧
    (∀ t ∈ (detect_changes cache current).1, ∃ p, dlookup t current = some p ∧
      p.ticket = t ∧
      (process_cycle cache current oOrd cOrd).signals.count (open_signal_of p) = 1) ∧
    (∀ t ∈ (detect_changes cache current).2, ∃ p, dlookup t cache = some p ∧
      (process_cycle cache current oOrd cOrd).signals.count (Signal.Close t p.symbol) = 1) ∧
    (∀ s ∈ (process_cycle cache current oOrd cOrd).signals,
      (∃ t ∈ (detect_changes cache current).1,
        s = open_signal_of ((dlookup t current).getD default)) ∨
      (∃ t ∈ (detect_changes cache current).2,
        s = Signal.Close t (close_symbol cache t))) ∧
    (process_cycle cache current oOrd cOrd).signals.length =
      (detect_changes cache current).1.card + (detect_changes cache current).2.card ∧
    (process_cycle cache current oOrd cOrd).signals.Perm
      (process_cycle cache current oOrd' cOrd').signals := by
  have hcoh : ∀ t p, dlookup t current = some p → p.ticket = t := by
    intro t p hp
    rw [hcur] at hp
    exact dict_of_positions_coherent hp
  have hod : (detect_changes cache current).1 = dkeys current \ dkeys cache := rfl
  have hcd : (detect_changes cache current).2 = dkeys cache \ dkeys current := rfl
  have hmemo : ∀ {t : Nat}, t ∈ oOrd ↔ t ∈ (detect_changes cache current).1 := by
    intro t
    rw [← hoF, List.mem_toFinset]
  have hmemc : ∀ {t : Nat}, t ∈ cOrd ↔ t ∈ (detect_changes cache current).2 := by
    intro t
    rw [← hcF, List.mem_toFinset]
  have hdisj : ∀ t ∈ cOrd, t ∉ oOrd := by
    intro t ht hto
    have h1 := hmemc.mp ht
    have h2 := hmemo.mp hto
    rw [hcd, Finset.mem_sdiff] at h1
    rw [hod, Finset.mem_sdiff] at h2
    exact h1.2 h2.1
  have hdisj' : ∀ t ∈ cOrd', t ∉ oOrd' := by
    intro t ht hto
    have h1 : t ∈ (detect_changes cache current).2 := by
      rw [← hcF']
      exact List.mem_toFinset.mpr ht
    have h2 : t ∈ (detect_changes cache current).1 := by
      rw [← hoF']
      exact List.mem_toFinset.mpr hto
    rw [hcd, Finset.mem_sdiff] at h1
    rw [hod, Finset.mem_sdiff] at h2
    exact h1.2 h2.1
  have hsig := process_cycle_signals cache current oOrd cOrd hcN hdisj
  have hsig' := process_cycle_signals cache current oOrd' cOrd' hcN' hdisj'
  refine ⟨hod, hcd, ?_, ?_, ?_, ?_, ?_⟩
  · -- exactly one Open per opened ticket, with the polled fields
    intro t ht
    have htcur : t ∈ dkeys current := by
      rw [hod, Finset.mem_sdiff] at ht
      exact ht.1
    obtain ⟨p, hp⟩ := mem_dkeys_iff.mp htcur
    refine ⟨p, hp, hcoh t p hp, ?_⟩
    rw [hsig, List.count_append]
    have hopen1 :
        (oOrd.map fun t => open_signal_of ((dlookup t current).getD default)).count
          (open_signal_of p) = 1 := by
      rw [List.count_eq_countP, List.countP_map]
      have hcongr : ∀ x ∈ oOrd,
          ((open_signal_of ((dlookup x current).getD default) == open_signal_of p) = true) ↔
          ((x == t) = true) := by
        intro x hx
        have hxcur : x ∈ dkeys current := by
          have := hmemo.mp hx
          rw [hod, Finset.mem_sdiff] at this
          exact this.1
        obtain ⟨q, hq⟩ := mem_dkeys_iff.mp hxcur
        simp only [hq, Option.getD_some, beq_iff_eq]
        constructor
        · intro he
          have hfields : q.ticket = p.ticket := by
            simpa [open_signal_of, Signal.Open.injEq] using congrArg (fun s =>
              match s with
              | Signal.Open t _ _ _ _ _ _ => t
              | Signal.Close t _ => t) he
          rw [← hcoh x q hq, hfields, hcoh t p hp]
        · intro he
          subst he
          rw [hq] at hp
          cases hp
          rfl
      simp only [Function.comp_def]
      rw [List.countP_congr hcongr, ← List.count_eq_countP]
      exact List.count_eq_one_of_mem hoN (hmemo.mpr ht)
    have hclose0 :
        (cOrd.map fun t => Signal.Close t (close_symbol cache t)).count
          (open_signal_of p) = 0 := by
      rw [List.count_eq_countP, List.countP_map, List.countP_eq_zero]
      intro a _
      simp [open_signal_of]
    rw [hopen1, hclose0]
  · -- exactly one Close per closed ticket, with the cached symbol
    intro t ht
    have htc : t ∈ dkeys cache := by
      rw [hcd, Finset.mem_sdiff] at ht
      exact ht.1
    obtain ⟨p, hp⟩ := mem_dkeys_iff.mp htc
    refine ⟨p, hp, ?_⟩
    rw [hsig, List.count_append]
    have hopen0 :
        (oOrd.map fun t => open_signal_of ((dlookup t current).getD default)).count
          (Signal.Close t p.symbol) = 0 := by
      rw [List.count_eq_countP, List.countP_map, List.countP_eq_zero]
      intro a _
      simp [open_signal_of]
    have hclose1 :
        (cOrd.map fun t => Signal.Close t (close_symbol cache t)).count
          (Signal.Close t p.symbol) = 1 := by
      rw [List.count_eq_countP, List.countP_map]
      have hcongr : ∀ x ∈ cOrd,
          ((Signal.Close x (close_symbol cache x) == Signal.Close t p.symbol) = true) ↔
          ((x == t) = true) := by
        intro x _
        simp only [beq_iff_eq, Signal.Close.injEq]
        constructor
        · intro he
          exact he.1
        · intro he
          subst he
          refine ⟨rfl, ?_⟩
          rw [close_symbol, hp]
      simp only [Function.comp_def]
      rw [List.countP_congr hcongr, ← List.count_eq_countP]
      exact List.count_eq_one_of_mem hcN (hmemc.mpr ht)
    rw [hopen0, hclose1]
  · -- every published signal is one of the two canonical forms
    intro s hs
    rw [hsig, List.mem_append] at hs
    rcases hs with hs | hs
    · rw [List.mem_map] at hs
      obtain ⟨t, ht, he⟩ := hs
      exact Or.inl ⟨t, hmemo.mp ht, he.symm⟩
    · rw [List.mem_map] at hs
      obtain ⟨t, ht, he⟩ := hs
      exact Or.inr ⟨t, hmemc.mp ht, he.symm⟩
  · -- no duplicates, no omissions: total count matches
    rw [hsig, List.length_append, List.length_map, List.length_map,
      ← hoF, ← hcF, List.toFinset_card_of_nodup hoN, List.toFinset_card_of_nodup hcN]
  · -- order independence
    rw [hsig, hsig']
    exact ((List.perm_of_nodup_nodup_toFinset_eq hoN hoN'
        (hoF.trans hoF'.symm)).map _).append
      ((List.perm_of_nodup_nodup_toFinset_eq hcN hcN' (hcF.trans hcF'.symm)).map _)

/-- C2 witness: one cached ticket 555 closes, one polled ticket 777
opens. -/
theorem master_diff_correct_witness :
    (detect_changes [(555, examplePos)] (get_current_positions (some [examplePos2]))).1 =
      dkeys (get_current_positions (some [examplePos2])) \ dkeys [(555, examplePos)] ∧
    (process_cycle [(555, examplePos)] (get_current_positions (some [examplePos2]))
        [777] [555]).signals.length =
      (detect_changes [(555, examplePos)] (get_current_positions (some [examplePos2]))).1.card +
      (detect_changes [(555, examplePos)] (get_current_positions (some [examplePos2]))).2.card ∧
    (process_cycle [(555, examplePos)] (get_current_positions (some [examplePos2]))
        [777] [555]).signals.Perm
      (process_cycle [(555, examplePos)] (get_current_positions (some [examplePos2]))
        [777] [555]).signals := by
  have h := master_diff_correct [(555, examplePos)] [examplePos2]
    (get_current_positions (some [examplePos2])) rfl [777] [555] [777] [555]
    (by decide) (by decide) (by decide) (by decide)
    (by decide) (by decide) (by decide) (by decide)
  exact ⟨h.1, h.2.2.2.2.2.1, h.2.2.2.2.2.2⟩

/-! ## Correlation store lemmas -/

theorem openMatch_split (mt : Nat) (name : String) (r : TradeRecord) :
    openMatch mt name r = (pairMatch mt name r && (r.status == "OPEN")) := rfl

theorem find_open_of_filter_pair {store : List TradeRecord} {mt : Nat} {name : String}
    {r : TradeRecord} (hf : store.filter (pairMatch mt name) = [r])
    (hst : r.status = "OPEN") :
    store.find? (openMatch mt name) = some r := by
  induction store with
  | nil => simp at hf
  | cons a store ih =>
    rw [List.filter_cons] at hf
    by_cases hp : pairMatch mt name a
    · rw [if_pos hp] at hf
      have ha : a = r := (List.cons_eq_cons.mp hf).1
      subst ha
      have hopen : openMatch mt name a = true := by
        rw [openMatch_split, hp, hst]
        rfl
      exact List.find?_cons_of_pos store hopen
    · rw [if_neg hp] at hf
      have hpf : pairMatch mt name a = false := Bool.eq_false_iff.mpr hp
      have hno : openMatch mt name a = false := by
        rw [openMatch_split, hpf, Bool.false_and]
      rw [List.find?_cons_of_neg store (by rw [hno]; exact Bool.false_ne_true)]
      exact ih hf

theorem find_open_none_of_pair_closed {store : List TradeRecord} {mt : Nat} {name : String}
    {rc : TradeRecord} (hf : store.filter (pairMatch mt name) = [rc])
    (hst : rc.status = "CLOSED") :
    store.find? (openMatch mt name) = none := by
  rw [List.find?_eq_none]
  intro a ha hopen
  rw [openMatch_split] at hopen
  have hpair : pairMatch mt name a = true := (Bool.and_eq_true_iff.mp hopen).1
  have hsta : a.status = "OPEN" := by
    have := (Bool.and_eq_true_iff.mp hopen).2
    exact beq_iff_eq.mp this
  have hmem : a ∈ store.filter (pairMatch mt name) := List.mem_filter.mpr ⟨ha, hpair⟩
  rw [hf] at hmem
  simp at hmem
  subst hmem
  rw [hst] at hsta
  exact absurd hsta (by decide)

theorem close_trade_filter_pair {mt : Nat} {name : String} {r : TradeRecord} {now : Nat} :
    ∀ {store : List TradeRecord}, store.filter (pairMatch mt name) = [r] →
      r.status = "OPEN" →
      (close_trade now mt name store).1.filter (pairMatch mt name) =
        [{ r with status := "CLOSED", close_time := some now }] := by
  intro store
  induction store with
  | nil => intro hf _; simp at hf
  | cons a store ih =>
    intro hf hst
    rw [List.filter_cons] at hf
    by_cases hp : pairMatch mt name a
    · rw [if_pos hp] at hf
      have ha : a = r := (List.cons_eq_cons.mp hf).1
      have hrest : store.filter (pairMatch mt name) = [] := (List.cons_eq_cons.mp hf).2
      subst ha
      have hopen : openMatch mt name a = true := by
        rw [openMatch_split, hp, hst]
        rfl
      rw [close_trade, if_pos hopen, List.filter_cons]
      have hp' : pairMatch mt name { a with status := "CLOSED", close_time := some now } =
          true := hp
      rw [if_pos hp', hrest]
    · rw [if_neg hp] at hf
      have hpf : pairMatch mt name a = false := Bool.eq_false_iff.mpr hp
      have hno : openMatch mt name a = false := by
        rw [openMatch_split, hpf, Bool.false_and]
      rw [close_trade, if_neg (by rw [hno]; exact Bool.false_ne_true), List.filter_cons,
        if_neg hp]
      exact ih hf hst

/-! ## C4: slippage boundary -/

/-- C4: with tolerance T (in broker points of size `pt`), a live/signal
deviation of exactly T points passes the slippage check, while any
strictly greater deviation fails it and makes `execute_open` return no
ticket, create no correlation record, and submit no order. -/
theorem slippage_boundary (cfg : SlaveCfg) (store : List TradeRecord)
    (signal : OpenSignal) (envA envR : SlaveEnv) (tickA tickR : Tick) (pt : ℚ)
    (hpt : 0 < pt)
    (htickA : envA.symbol_info_tick (translate cfg.translator signal.symbol) = some tickA)
    (hptA : envA.symbol_info_point (translate cfg.translator signal.symbol) = some pt)
    (hdevA : |(if signal.type = 0 then tickA.ask else tickA.bid) - signal.price| =
      cfg.slippage_tolerance * pt)
    (hsel : envR.symbol_select (translate cfg.translator signal.symbol) = true)
    (htickR : envR.symbol_info_tick (translate cfg.translator signal.symbol) = some tickR)
    (hptR : envR.symbol_info_point (translate cfg.translator signal.symbol) = some pt)
    (hdevR : |(if signal.type = 0 then tickR.ask else tickR.bid) - signal.price| >
      cfg.slippage_tolerance * pt) :
    check_slippage envA cfg (translate cfg.translator signal.symbol)
      signal.price signal.type = true ∧
    check_slippage envR cfg (translate cfg.translator signal.symbol)
      signal.price signal.type = false ∧
    execute_open envR cfg store signal =
      { ticket := none, store := store, orders := [], logs := [] } := by
  have hA : check_slippage envA cfg (translate cfg.translator signal.symbol)
      signal.price signal.type = true := by
    simp only [check_slippage, htickA, hptA]
    rw [hdevA, mul_div_cancel_right₀ _ (ne_of_gt hpt)]
    rw [if_neg (lt_irrefl cfg.slippage_tolerance)]
  have hR : check_slippage envR cfg (translate cfg.translator signal.symbol)
      signal.price signal.type = false := by
    simp only [check_slippage, htickR, hptR]
    rw [if_pos ((lt_div_iff₀ hpt).mpr hdevR)]
  refine ⟨hA, hR, ?_⟩
  simp only [execute_open, hsel, hR]
  simp

theorem point_pos_fact : (0 : ℚ) < 1/100000 := by norm_num

theorem dev_accept_fact :
    |(if exampleSignal.type = 0 then ((2201:ℚ)/2000) else ((11:ℚ)/10)) -
        exampleSignal.price| = exampleCfg.slippage_tolerance * (1/100000) := by
  simp only [exampleSignal, exampleCfg]
  norm_num

theorem dev_reject_fact :
    |(if exampleSignal.type = 0 then ((110051:ℚ)/100000) else ((11:ℚ)/10)) -
        exampleSignal.price| > exampleCfg.slippage_tolerance * (1/100000) := by
  simp only [exampleSignal, exampleCfg]
  rw [if_pos trivial]
  rw [show ((110051:ℚ)/100000) - 11/10 = 51/100000 by norm_num,
    show ((50:ℚ) * (1/100000)) = 50/100000 by norm_num,
    abs_of_pos (by norm_num)]
  norm_num

/-- C4 witness: tolerance 50, point 1/100000, master price 1.10000:
live ask 1.10050 (exactly 50 points) is accepted; live ask 1.10051
(51 points) is rejected with no ticket, no record, no order. -/
theorem slippage_boundary_witness :
    check_slippage (happyEnv (2201/2000) (11/10)) exampleCfg
      (translate exampleCfg.translator exampleSignal.symbol)
      exampleSignal.price exampleSignal.type = true ∧
    check_slippage (happyEnv (110051/100000) (11/10)) exampleCfg
      (translate exampleCfg.translator exampleSignal.symbol)
      exampleSignal.price exampleSignal.type = false ∧
    execute_open (happyEnv (110051/100000) (11/10)) exampleCfg [] exampleSignal =
      { ticket := none, store := [], orders := [], logs := [] } :=
  slippage_boundary exampleCfg [] exampleSignal
    (happyEnv (2201/2000) (11/10)) (happyEnv (110051/100000) (11/10))
    ⟨2201/2000, 11/10⟩ ⟨110051/100000, 11/10⟩ (1/100000)
    point_pos_fact rfl rfl dev_accept_fact
    rfl rfl rfl dev_reject_fact

/-! ## C7: reconciliation when the mirrored position is gone -/

/-- C7: a Close whose pair has an OPEN correlation record but whose
mirrored position no longer exists on the slave broker marks the record
CLOSED, submits no order, and returns (False) without raising and
without any error-level log. -/
theorem close_reconciliation (env : SlaveEnv) (cfg : SlaveCfg)
    (store : List TradeRecord) (mt : Nat) (r : TradeRecord)
    (hf : store.filter (pairMatch mt cfg.name) = [r]) (hst : r.status = "OPEN")
    (hgone : env.positions_get r.slave_ticket = []) :
    execute_close env cfg store mt =
      { ok := false, store := (close_trade env.now mt cfg.name store).1, orders := [],
        logs := [(LogLevel.warning,
          "Position " ++ toString r.slave_ticket ++ " not found")] } ∧
    (close_trade env.now mt cfg.name store).1.filter (pairMatch mt cfg.name) =
      [{ r with status := "CLOSED", close_time := some env.now }] ∧
    (∀ e ∈ (execute_close env cfg store mt).logs, e.1 ≠ LogLevel.error) := by
  have hslv : get_slave_ticket store mt cfg.name = some r.slave_ticket := by
    rw [get_slave_ticket, find_open_of_filter_pair hf hst]
    rfl
  have hexec : execute_close env cfg store mt =
      { ok := false, store := (close_trade env.now mt cfg.name store).1, orders := [],
        logs := [(LogLevel.warning,
          "Position " ++ toString r.slave_ticket ++ " not found")] } := by
    simp only [execute_close, hslv, hgone]
  refine ⟨hexec, close_trade_filter_pair hf hst, ?_⟩
  rw [hexec]
  intro e he
  simp at he
  rw [he]
  simp

/-- C7 witness: the "Apex" slave holds an OPEN record for ticket 555
but its broker no longer has the mirrored position 9001. -/
theorem close_reconciliation_witness :
    execute_close goneEnv exampleCfg [exampleRecord] 555 =
      { ok := false, store := (close_trade goneEnv.now 555 exampleCfg.name [exampleRecord]).1,
        orders := [],
        logs := [(LogLevel.warning,
          "Position " ++ toString exampleRecord.slave_ticket ++ " not found")] } ∧
    (close_trade goneEnv.now 555 exampleCfg.name [exampleRecord]).1.filter
        (pairMatch 555 exampleCfg.name) =
      [{ exampleRecord with status := "CLOSED", close_time := some goneEnv.now }] ∧
    (∀ e ∈ (execute_close goneEnv exampleCfg [exampleRecord] 555).logs,
      e.1 ≠ LogLevel.error) :=
  close_reconciliation goneEnv exampleCfg [exampleRecord] 555 exampleRecord
    (by decide) rfl rfl

/-! ## C6: idempotent close -/

/-- C6: with exactly one OPEN record for the pair, a live mirrored
position and a broker accepting the close order, the first
`execute_close` succeeds and leaves exactly one CLOSED record for the
pair; the second call is a no-op: it logs a "no mapping" warning,
returns False without raising, mutates nothing and submits no order. -/
theorem execute_close_idempotent (env : SlaveEnv) (cfg : SlaveCfg)
    (store : List TradeRecord) (mt : Nat) (r : TradeRecord)
    (bp : BrokerPosition) (bps : List BrokerPosition)
    (hf : store.filter (pairMatch mt cfg.name) = [r]) (hst : r.status = "OPEN")
    (hpos : env.positions_get r.slave_ticket = bp :: bps)
    (hsend : ∀ req, ∃ res, env.order_send req = some res ∧
      res.retcode = TRADE_RETCODE_DONE) :
    (execute_close env cfg store mt).ok = true ∧
    (execute_close env cfg store mt).store = (close_trade env.now mt cfg.name store).1 ∧
    (execute_close env cfg store mt).store.filter (pairMatch mt cfg.name) =
      [{ r with status := "CLOSED", close_time := some env.now }] ∧
    execute_close env cfg (execute_close env cfg store mt).store mt =
      { ok := false, store := (execute_close env cfg store mt).store, orders := [],
        logs := [(LogLevel.warning,
          "No mapping found for master ticket " ++ toString mt)] } := by
  have hslv : get_slave_ticket store mt cfg.name = some r.slave_ticket := by
    rw [get_slave_ticket, find_open_of_filter_pair hf hst]
    rfl
  have hok : (execute_close env cfg store mt).ok = true := by
    simp only [execute_close, hslv, hpos]
    obtain ⟨res, hres, hrc⟩ := hsend _
    rw [hres]
    simp [hrc]
  have hstore : (execute_close env cfg store mt).store =
      (close_trade env.now mt cfg.name store).1 := by
    simp only [execute_close, hslv, hpos]
    obtain ⟨res, hres, hrc⟩ := hsend _
    rw [hres]
    simp [hrc]
  have hfilter : (execute_close env cfg store mt).store.filter (pairMatch mt cfg.name) =
      [{ r with status := "CLOSED", close_time := some env.now }] := by
    rw [hstore]
    exact close_trade_filter_pair hf hst
  have hnone : get_slave_ticket (execute_close env cfg store mt).store mt cfg.name =
      none := by
    rw [get_slave_ticket, find_open_none_of_pair_closed hfilter rfl]
    rfl
  refine ⟨hok, hstore, hfilter, ?_⟩
  obtain ⟨S, hS⟩ : ∃ S, (execute_close env cfg store mt).store = S := ⟨_, rfl⟩
  rw [hS] at hnone
  rw [hS]
  simp only [execute_close, hnone]

/-- C6 witness: spec scenario 1's record closed twice on "Apex". -/
theorem execute_close_idempotent_witness :
    (execute_close (happyEnv (11/10) (11/10)) exampleCfg [exampleRecord] 555).ok = true ∧
    (execute_close (happyEnv (11/10) (11/10)) exampleCfg
        [exampleRecord] 555).store.filter (pairMatch 555 exampleCfg.name) =
      [{ exampleRecord with status := "CLOSED", close_time := some (happyEnv (11/10) (11/10)).now }] ∧
    execute_close (happyEnv (11/10) (11/10)) exampleCfg
        (execute_close (happyEnv (11/10) (11/10)) exampleCfg [exampleRecord] 555).store
        555 =
      { ok := false,
        store :=
          (execute_close (happyEnv (11/10) (11/10)) exampleCfg [exampleRecord] 555).store,
        orders := [],
        logs := [(LogLevel.warning,
          "No mapping found for master ticket " ++ toString 555)] } := by
  have h := execute_close_idempotent (happyEnv (11/10) (11/10)) exampleCfg
    [exampleRecord] 555 exampleRecord ⟨9001, "EURUSD.c", 0, 1/10⟩ []
    (by decide) rfl rfl
    (fun _ => ⟨⟨TRADE_RETCODE_DONE, 9001, 11/10, ""⟩, rfl, rfl⟩)
  exact ⟨h.1, h.2.2.1, h.2.2.2⟩

/-! ## C3: OPEN-correlation uniqueness -/

/-- `execute_open` either leaves the store unchanged or appends exactly
one OPEN record keyed by the signal's ticket and this slave's name. -/
theorem execute_open_store_cases (env : SlaveEnv) (cfg : SlaveCfg)
    (store : List TradeRecord) (signal : OpenSignal) :
    (execute_open env cfg store signal).store = store ∨
    ∃ st, (execute_open env cfg store signal).store =
      store ++ [{ master_ticket := signal.ticket, slave_ticket := st,
                  slave_name := cfg.name,
                  symbol := translate cfg.translator signal.symbol,
                  direction := if signal.type = 0 then "BUY" else "SELL",
                  status := "OPEN", open_time := env.now, close_time := none }] := by
  simp only [execute_open]
  repeat' first
    | exact Or.inl rfl
    | exact Or.inr ⟨_, rfl⟩
    | split

/-- `execute_close` either leaves the store unchanged or applies
`close_trade` to it. -/
theorem execute_close_store_cases (env : SlaveEnv) (cfg : SlaveCfg)
    (store : List TradeRecord) (mt : Nat) :
    (execute_close env cfg store mt).store = store ∨
    (execute_close env cfg store mt).store = (close_trade env.now mt cfg.name store).1 := by
  simp only [execute_close]
  repeat' first
    | exact Or.inl rfl
    | exact Or.inr rfl
    | split

/-- `close_trade` never increases the number of OPEN records for any
pair: it only flips one OPEN record to CLOSED. -/
theorem close_trade_countP_le (now mt mt' : Nat) (name nm : String) :
    ∀ store : List TradeRecord,
      (close_trade now mt name store).1.countP (openMatch mt' nm) ≤
        store.countP (openMatch mt' nm) := by
  intro store
  induction store with
  | nil => exact Nat.le_refl _
  | cons r rest ih =>
    rw [close_trade]
    split
    · rw [List.countP_cons, List.countP_cons]
      have hcl : openMatch mt' nm { r with status := "CLOSED", close_time := some now } =
          false := by
        rw [openMatch_split]
        simp
      rw [hcl]
      have h0 : (if (false = true) then 1 else 0) = 0 := by simp
      rw [h0, Nat.add_zero]
      exact Nat.le_add_right _ _
    · rw [List.countP_cons, List.countP_cons]
      exact Nat.add_le_add ih (le_refl _)

/-- C3 counterexample: two successful Open signals for the same master
ticket 555 leave two OPEN correlation records for
`(555, "Apex")` in the store — the claimed invariant fails for this
signal sequence. -/
theorem correlation_uniqueness_counterexample :
    (process_signals exampleCfg []
        [(happyEnv (11/10) (11/10), Signal.Open 555 "EURUSD" 0 (1/10) (11/10) 1 (6/5)),
         (happyEnv (11/10) (11/10), Signal.Open 555 "EURUSD" 0 (1/10) (11/10) 1 (6/5))]).countP
      (openMatch 555 exampleCfg.name) = 2 := by
  have hcs : check_slippage (happyEnv (11/10) (11/10)) exampleCfg "EURUSD.c" (11/10) 0 =
      true := by
    simp only [check_slippage, happyEnv, exampleCfg]
    rw [ite_self, sub_self, abs_zero, zero_div]
    norm_num
  have htr : translate exampleCfg.translator "EURUSD" = "EURUSD.c" := rfl
  have hstep : ∀ s : List TradeRecord,
      (execute_open (happyEnv (11/10) (11/10)) exampleCfg s
        ⟨555, "EURUSD", 0, 1/10, 11/10, 1, 6/5⟩).store =
      s ++ [{ master_ticket := 555, slave_ticket := 9001, slave_name := "Apex",
              symbol := "EURUSD.c", direction := "BUY", status := "OPEN",
              open_time := 42, close_time := none }] := by
    intro s
    simp only [execute_open, htr, hcs]
    simp [happyEnv, create_mapping, TRADE_RETCODE_DONE, exampleCfg]
  simp only [process_signals, List.foldl_cons, List.foldl_nil, process_signal]
  rw [hstep, hstep]
  decide

theorem countP_singleton (p : TradeRecord → Bool) (a : TradeRecord) :
    List.countP p [a] = if p a then 1 else 0 := by
  simp [List.countP_cons]

/-- The OPEN record appended by a successful `execute_open` matches
`openMatch mt'` exactly when `mt'` is the signal's ticket. -/
theorem openMatch_new_record (cfg : SlaveCfg) (t st mt' now : Nat) (sym dir : String) :
    openMatch mt' cfg.name
      { master_ticket := t, slave_ticket := st, slave_name := cfg.name,
        symbol := sym, direction := dir, status := "OPEN",
        open_time := now, close_time := none } = (t == mt') := by
  simp [openMatch]

/-- Replaying signals whose Open tickets are pairwise distinct and have
no OPEN record yet preserves "at most one OPEN record per pair". -/
theorem process_prefix_le_one (cfg : SlaveCfg) :
    ∀ (pre : List (SlaveEnv × Signal)) (store : List TradeRecord),
      (open_tickets pre).Nodup →
      (∀ mt, store.countP (openMatch mt cfg.name) ≤ 1) →
      (∀ t ∈ open_tickets pre, store.countP (openMatch t cfg.name) = 0) →
      ∀ mt, (process_signals cfg store pre).countP (openMatch mt cfg.name) ≤ 1 := by
  intro pre
  induction pre with
  | nil =>
    intro store _ hinv _ mt
    exact hinv mt
  | cons es pre ih =>
    intro store hnd hinv hfresh mt
    rw [process_signals, List.foldl_cons]
    have hrest : pre.foldl (process_signal cfg) (process_signal cfg store es) =
        process_signals cfg (process_signal cfg store es) pre := rfl
    rw [hrest]
    cases hes : es.2 with
    | Open t sym ty vol pr sl tp =>
      have hot : open_tickets (es :: pre) = t :: open_tickets pre := by
        rw [open_tickets, List.filterMap_cons, hes]
        rfl
      rw [hot] at hnd hfresh
      have hnd2 := List.nodup_cons.mp hnd
      have hstore' : process_signal cfg store es =
          (execute_open es.1 cfg store ⟨t, sym, ty, vol, pr, sl, tp⟩).store := by
        rw [process_signal, hes]
      rcases execute_open_store_cases es.1 cfg store ⟨t, sym, ty, vol, pr, sl, tp⟩ with
        hc | ⟨st, hc⟩
      · rw [hstore', hc]
        exact ih store hnd2.2 hinv (fun t' ht' => hfresh t' (List.mem_cons_of_mem t ht')) mt
      · rw [hstore', hc]
        refine ih _ hnd2.2 ?_ ?_ mt
        · intro mt'
          rw [List.countP_append, countP_singleton, openMatch_new_record]
          by_cases hmt : t = mt'
          · subst hmt
            rw [hfresh t (List.mem_cons_self t _)]
            simp
          · rw [if_neg (by simpa using hmt)]
            simpa using hinv mt'
        · intro t' ht'
          rw [List.countP_append, countP_singleton, openMatch_new_record,
            hfresh t' (List.mem_cons_of_mem t ht'),
            if_neg (by simpa using fun he : t = t' => hnd2.1 (he ▸ ht'))]
    | Close t symb =>
      have hot : open_tickets (es :: pre) = open_tickets pre := by
        rw [open_tickets, List.filterMap_cons, hes]
        rfl
      rw [hot] at hnd hfresh
      have hstore' : process_signal cfg store es = (execute_close es.1 cfg store t).store := by
        rw [process_signal, hes]
      rcases execute_close_store_cases es.1 cfg store t with hc | hc
      · rw [hstore', hc]
        exact ih store hnd hinv hfresh mt
      · rw [hstore', hc]
        refine ih _ hnd ?_ ?_ mt
        · intro mt'
          exact le_trans (close_trade_countP_le es.1.now t mt' cfg.name cfg.name store)
            (hinv mt')
        · intro t' ht'
          exact Nat.le_zero.mp (le_trans
            (close_trade_countP_le es.1.now t t' cfg.name cfg.name store)
            (le_of_eq (hfresh t' ht')))

/-- C3 (amended): for every sequence of Open and Close signals in which
the Open signals carry pairwise distinct master tickets none of which
already has an OPEN record, at most one correlation record with status
OPEN exists for any `(master_ticket, slave_name)` pair at every point
of the replay. -/
theorem correlation_uniqueness (cfg : SlaveCfg) (sigs : List (SlaveEnv × Signal))
    (store : List TradeRecord)
    (hnd : (open_tickets sigs).Nodup)
    (hinv : ∀ mt, store.countP (openMatch mt cfg.name) ≤ 1)
    (hfresh : ∀ t ∈ open_tickets sigs, store.countP (openMatch t cfg.name) = 0) :
    ∀ pre suf, sigs = pre ++ suf →
      ∀ mt, (process_signals cfg store pre).countP (openMatch mt cfg.name) ≤ 1 := by
  intro pre suf heq mt
  subst heq
  have hsplit : open_tickets (pre ++ suf) = open_tickets pre ++ open_tickets suf := by
    rw [open_tickets, open_tickets, open_tickets, List.filterMap_append]
  rw [hsplit] at hnd hfresh
  exact process_prefix_le_one cfg pre store (List.nodup_append.mp hnd).1 hinv
    (fun t ht => hfresh t (List.mem_append_left _ ht)) mt

/-- C3 witness for the amended theorem: an Open for 555 then a Close
for 555 replayed from an empty store. -/
theorem correlation_uniqueness_witness :
    (process_signals exampleCfg []
        [(happyEnv (11/10) (11/10), Signal.Open 555 "EURUSD" 0 (1/10) (11/10) 1 (6/5)),
         (goneEnv, Signal.Close 555 "EURUSD")]).countP
      (openMatch 555 exampleCfg.name) ≤ 1 :=
  correlation_uniqueness exampleCfg
    [(happyEnv (11/10) (11/10), Signal.Open 555 "EURUSD" 0 (1/10) (11/10) 1 (6/5)),
     (goneEnv, Signal.Close 555 "EURUSD")] []
    (by decide) (fun _ => by simp) (fun _ _ => rfl)
    [(happyEnv (11/10) (11/10), Signal.Open 555 "EURUSD" 0 (1/10) (11/10) 1 (6/5)),
     (goneEnv, Signal.Close 555 "EURUSD")] [] rfl 555

/-! ## C8: malformed bus payloads -/

/-- C8 counterexample: on a malformed frame — no topic/payload
separator, or JSON decode failure — the receiver returns the no-message
result but emits no log line at all: the claimed warning is absent. -/
theorem receive_malformed_counterexample :
    receive failDecode "garbage" = (none, []) ∧
    receive failDecode "TRADE notjson" = (none, []) ∧
    ¬ ((receive failDecode "garbage").2 ≠ [] ∧
        (receive failDecode "TRADE notjson").2 ≠ []) := by
  refine ⟨rfl, rfl, ?_⟩
  intro h
  exact h.1 rfl

/-- C8 (amended): every malformed frame — text without a topic/payload
separator, or a payload whose JSON fails to decode — makes `receive`
return the no-message result without raising, silently: no warning (no
log line at all) is emitted. -/
theorem receive_malformed_behavior {α : Type} (jsonLoads : String → Option α)
    (message : String)
    (hmal : (split_once message).length ≠ 2 ∨
      (∀ topic payload, split_once message = [topic, payload] →
        jsonLoads payload = none)) :
    receive jsonLoads message = (none, []) := by
  simp only [receive]
  cases hsp : split_once message with
  | nil => rfl
  | cons a rest =>
    cases rest with
    | nil => rfl
    | cons b rest2 =>
      cases rest2 with
      | nil =>
        rcases hmal with h | h
        · rw [hsp] at h
          simp at h
        · have hj := h a b hsp
          show (match jsonLoads b with
            | some p => (some p, [])
            | none => (none, [])) = ((none : Option α), ([] : List LogEntry))
          rw [hj]
      | cons c rest3 => rfl

/-- C8 witness for the amended theorem, on both malformation shapes. -/
theorem receive_malformed_behavior_witness :
    ((split_once "garbage").length ≠ 2 ∧ receive failDecode "garbage" = (none, [])) ∧
    receive failDecode "TRADE notjson" = (none, []) :=
  ⟨⟨by decide, receive_malformed_behavior failDecode "garbage" (Or.inl (by decide))⟩,
    receive_malformed_behavior failDecode "TRADE notjson"
      (Or.inr (fun _ _ _ => rfl))⟩

/-! ## C9: launcher supervision -/

theorem monitor_fold_spec (f : String → Option Int) :
    ∀ (procs : List String) (acc : List String × List LogEntry),
      procs.foldl
        (fun st name =>
          match f name with
          | some code => (st.1, st.2 ++ [(LogLevel.warning, exit_msg name code)])
          | none => (st.1 ++ [name], st.2)) acc =
      (acc.1 ++ procs.filter (fun n => (f n).isNone),
       acc.2 ++ procs.filterMap
         (fun n => (f n).map (fun code => (LogLevel.warning, exit_msg n code)))) := by
  intro procs
  induction procs with
  | nil =>
    intro acc
    simp
  | cons a procs ih =>
    intro acc
    rw [List.foldl_cons]
    cases hf : f a with
    | none =>
      rw [ih]
      simp [List.filter_cons, List.filterMap_cons, hf]
    | some code =>
      rw [ih]
      simp [List.filter_cons, List.filterMap_cons, hf]

theorem monitor_step_spec (f : String → Option Int) (procs : List String) :
    (monitor_step f procs).1 = procs.filter (fun n => (f n).isNone) ∧
    (monitor_step f procs).2 = procs.filterMap
      (fun n => (f n).map (fun code => (LogLevel.warning, exit_msg n code))) := by
  rw [monitor_step, monitor_fold_spec]
  simp

/-- C9: every monitor pass logs each exited child's account name and
exit code at warning level and removes it from the supervised table; a
pass is a sublist of its input (nothing is ever spawned), and along a
whole monitor run an account absent from the table never reappears in
any later supervised set. -/
theorem launcher_monitor_supervision :
    (∀ (f : String → Option Int) (procs : List String) (name : String) (code : Int),
      name ∈ procs → f name = some code →
        (LogLevel.warning, exit_msg name code) ∈ (monitor_step f procs).2 ∧
        name ∉ (monitor_step f procs).1) ∧
    (∀ (f : String → Option Int) (procs : List String),
      (monitor_step f procs).1.Sublist procs) ∧
    (∀ (pollSeq : List (String → Option Int)) (procs : List String) (name : String),
      name ∉ procs → ∀ s ∈ monitor_states pollSeq procs, name ∉ s) := by
  refine ⟨?_, ?_, ?_⟩
  · intro f procs name code hmem hf
    obtain ⟨h1, h2⟩ := monitor_step_spec f procs
    constructor
    · rw [h2, List.mem_filterMap]
      exact ⟨name, hmem, by rw [hf]; rfl⟩
    · rw [h1, List.mem_filter]
      intro hc
      rw [hf] at hc
      simp at hc
  · intro f procs
    rw [(monitor_step_spec f procs).1]
    exact List.filter_sublist procs
  · intro pollSeq
    induction pollSeq with
    | nil =>
      intro procs name hn s hs
      rw [monitor_states] at hs
      simp at hs
      rw [hs]
      exact hn
    | cons f rest ih =>
      intro procs name hn s hs
      rw [monitor_states] at hs
      rcases List.mem_cons.mp hs with h1 | h2
      · rw [h1]
        exact hn
      · refine ih (monitor_step f procs).1 name ?_ s h2
        rw [(monitor_step_spec f procs).1, List.mem_filter]
        intro hc
        exact hn hc.1

/-- C9 witness: supervising ["A", "B"], child "A" exits with code 3:
its warning is logged, it is dropped, the pass shrinks the table, and
an unsupervised name never appears in any state. -/
theorem launcher_monitor_supervision_witness :
    ("A" ∈ ["A", "B"] ∧ examplePoll "A" = some 3) ∧
    ((LogLevel.warning, exit_msg "A" 3) ∈ (monitor_step examplePoll ["A", "B"]).2 ∧
      "A" ∉ (monitor_step examplePoll ["A", "B"]).1) ∧
    (monitor_step examplePoll ["A", "B"]).1.Sublist ["A", "B"] ∧
    ("C" ∉ ["A", "B"] ∧
      ∀ s ∈ monitor_states [examplePoll] ["A", "B"], "C" ∉ s) :=
  ⟨⟨by decide, rfl⟩,
    launcher_monitor_supervision.1 examplePoll ["A", "B"] "A" 3 (by decide) rfl,
    launcher_monitor_supervision.2.1 examplePoll ["A", "B"],
    ⟨by decide,
      launcher_monitor_supervision.2.2 [examplePoll] ["A", "B"] "C" (by decide)⟩⟩

/-! ## C10: lifecycle of a position already open at Master startup -/

theorem dlookup_foldl_derase_not_mem (t : Nat) :
    ∀ l : List Nat, t ∉ l → ∀ c : PosMap, dlookup t (l.foldl derase c) = dlookup t c := by
  intro l
  induction l with
  | nil =>
    intro _ c
    rfl
  | cons a l ih =>
    intro ht c
    rw [List.foldl_cons, ih (fun h => ht (List.mem_cons_of_mem a h)) (derase c a)]
    exact dlookup_derase_ne (fun h => ht (h ▸ List.mem_cons_self a l))

theorem dlookup_foldl_derase_mem (t : Nat) :
    ∀ l : List Nat, t ∈ l → ∀ c : PosMap, dlookup t (l.foldl derase c) = none := by
  intro l
  induction l with
  | nil =>
    intro ht
    exact absurd ht (List.not_mem_nil t)
  | cons a l ih =>
    intro ht c
    rw [List.foldl_cons]
    by_cases h : t ∈ l
    · exact ih h (derase c a)
    · have hta : t = a := by
        rcases List.mem_cons.mp ht with h1 | h2
        · exact h1
        · exact absurd h2 h
      rw [dlookup_foldl_derase_not_mem t l h (derase c a), hta]
      exact dlookup_derase_self

theorem run_cycle_eq (c : PosMap) (p : List Position) :
    run_cycle c (some p) =
      process_cycle c (dict_of_positions p)
        (canon_enum (dkeys (dict_of_positions p) \ dkeys c))
        (canon_enum (dkeys c \ dkeys (dict_of_positions p))) := rfl

theorem run_cycle_signals (c : PosMap) (p : List Position) :
    (run_cycle c (some p)).signals =
      (canon_enum (dkeys (dict_of_positions p) \ dkeys c)).map
        (fun x => open_signal_of ((dlookup x (dict_of_positions p)).getD default)) ++
      (canon_enum (dkeys c \ dkeys (dict_of_positions p))).map
        (fun x => Signal.Close x (close_symbol c x)) := by
  rw [run_cycle_eq]
  apply process_cycle_signals
  · exact Finset.sort_nodup _ _
  · intro x hx hxo
    rw [canon_enum, Finset.mem_sort] at hx
    rw [canon_enum, Finset.mem_sort] at hxo
    rw [Finset.mem_sdiff] at hx hxo
    exact hx.2 hxo.1

theorem run_cycle_cache_eq (c : PosMap) (p : List Position) :
    (run_cycle c (some p)).cache =
      (canon_enum (dkeys c \ dkeys (dict_of_positions p))).foldl derase
        ((canon_enum (dkeys (dict_of_positions p) \ dkeys c)).foldl
          (fun m x => dset m x ((dlookup x (dict_of_positions p)).getD default)) c) := by
  rw [run_cycle_eq, process_cycle_cache]

theorem mem_canon_enum {s : Finset Nat} {a : Nat} : a ∈ canon_enum s ↔ a ∈ s := by
  rw [canon_enum]
  exact Finset.mem_sort _

theorem canon_enum_nodup (s : Finset Nat) : (canon_enum s).Nodup := by
  rw [canon_enum]
  exact Finset.sort_nodup _ _

theorem count_canon_enum (s : Finset Nat) (t : Nat) :
    (canon_enum s).count t = if t ∈ s then 1 else 0 := by
  by_cases h : t ∈ s
  · rw [if_pos h]
    exact List.count_eq_one_of_mem (Finset.sort_nodup _ _) ((Finset.mem_sort _).mpr h)
  · rw [if_neg h]
    exact List.count_eq_zero_of_not_mem (fun hc => h ((Finset.mem_sort _).mp hc))

theorem countP_open_map (cur : PosMap) (t : Nat) (l : List Nat)
    (hsub : ∀ x ∈ l, x ∈ dkeys cur)
    (hcoh : ∀ x q, dlookup x cur = some q → q.ticket = x) :
    (l.map (fun x => open_signal_of ((dlookup x cur).getD default))).countP
      (is_open_for t) = l.count t := by
  rw [List.countP_map, List.count_eq_countP]
  simp only [Function.comp_def]
  apply List.countP_congr
  intro x hx
  obtain ⟨q, hq⟩ := mem_dkeys_iff.mp (hsub x hx)
  rw [hq]
  simp only [Option.getD_some, open_signal_of, is_open_for]
  rw [hcoh x q hq]

theorem countP_close_map_is_close (c : PosMap) (t : Nat) (l : List Nat) :
    (l.map (fun x => Signal.Close x (close_symbol c x))).countP (is_close_for t) =
      l.count t := by
  rw [List.countP_map, List.count_eq_countP]
  simp only [Function.comp_def]
  apply List.countP_congr
  intro x _
  simp [is_close_for]

theorem countP_open_map_is_close (cur : PosMap) (t : Nat) (l : List Nat) :
    (l.map (fun x => open_signal_of ((dlookup x cur).getD default))).countP
      (is_close_for t) = 0 := by
  rw [List.countP_map, List.countP_eq_zero]
  intro a _
  simp [Function.comp, open_signal_of, is_close_for]

theorem countP_close_map_is_open (c : PosMap) (t : Nat) (l : List Nat) :
    (l.map (fun x => Signal.Close x (close_symbol c x))).countP (is_open_for t) = 0 := by
  rw [List.countP_map, List.countP_eq_zero]
  intro a _
  simp [Function.comp, is_open_for]

theorem count_exact_close_map (c : PosMap) (t : Nat) (l : List Nat)
    (hnd : l.Nodup) (ht : t ∈ l) :
    (l.map (fun x => Signal.Close x (close_symbol c x))).count
      (Signal.Close t (close_symbol c t)) = 1 := by
  rw [List.count_eq_countP, List.countP_map]
  simp only [Function.comp_def]
  have hcongr : ∀ x ∈ l,
      ((Signal.Close x (close_symbol c x) == Signal.Close t (close_symbol c t)) = true) ↔
      ((x == t) = true) := by
    intro x _
    simp only [beq_iff_eq, Signal.Close.injEq]
    constructor
    · exact fun h => h.1
    · intro h
      subst h
      exact ⟨rfl, rfl⟩
  rw [List.countP_congr hcongr, ← List.count_eq_countP]
  exact List.count_eq_one_of_mem hnd ht

theorem count_exact_close_in_open_map (cur : PosMap) (t : Nat) (sym : String)
    (l : List Nat) :
    (l.map (fun x => open_signal_of ((dlookup x cur).getD default))).count
      (Signal.Close t sym) = 0 := by
  rw [List.count_eq_countP, List.countP_map, List.countP_eq_zero]
  intro a _
  simp [Function.comp, open_signal_of]

theorem count_close_le_countP (l : List Signal) (t : Nat) (sym : String) :
    l.count (Signal.Close t sym) ≤ l.countP (is_close_for t) := by
  rw [List.count_eq_countP]
  apply List.countP_mono_left
  intro s _ hs
  rw [beq_iff_eq] at hs
  subst hs
  simp [is_close_for]

/-- A cycle in which ticket `t` is both cached and live publishes no
signal for `t` and leaves its cache entry untouched. -/
theorem run_cycle_present (c : PosMap) (p : List Position) {t : Nat}
    (hcur : t ∈ dkeys (dict_of_positions p)) (hc : t ∈ dkeys c) :
    (run_cycle c (some p)).signals.countP (is_open_for t) = 0 ∧
    (run_cycle c (some p)).signals.countP (is_close_for t) = 0 ∧
    dlookup t (run_cycle c (some p)).cache = dlookup t c := by
  have hto : t ∉ dkeys (dict_of_positions p) \ dkeys c := by
    rw [Finset.mem_sdiff]
    exact fun h => h.2 hc
  have htc : t ∉ dkeys c \ dkeys (dict_of_positions p) := by
    rw [Finset.mem_sdiff]
    exact fun h => h.2 hcur
  refine ⟨?_, ?_, ?_⟩
  · rw [run_cycle_signals, List.countP_append,
      countP_open_map (dict_of_positions p) t _
        (fun x hx => (Finset.mem_sdiff.mp (mem_canon_enum.mp hx)).1)
        (fun _ _ hq => dict_of_positions_coherent hq),
      countP_close_map_is_open, count_canon_enum, if_neg hto]
  · rw [run_cycle_signals, List.countP_append, countP_open_map_is_close,
      countP_close_map_is_close, count_canon_enum, if_neg htc]
  · rw [run_cycle_cache_eq,
      dlookup_foldl_derase_not_mem t _ (fun hx => htc (mem_canon_enum.mp hx)) _,
      dlookup_foldl_dset _ (fun hx => hto (mem_canon_enum.mp hx))]

/-- A cycle in which cached ticket `t` is no longer live publishes no
Open for `t`, publishes exactly one Close for `t` carrying the cached
symbol, and erases `t` from the cache. -/
theorem run_cycle_gone (c : PosMap) (p : List Position) {t : Nat}
    (hcur : t ∉ dkeys (dict_of_positions p)) (hc : t ∈ dkeys c) :
    (run_cycle c (some p)).signals.countP (is_open_for t) = 0 ∧
    (run_cycle c (some p)).signals.countP (is_close_for t) = 1 ∧
    (run_cycle c (some p)).signals.count (Signal.Close t (close_symbol c t)) = 1 ∧
    dlookup t (run_cycle c (some p)).cache = none := by
  have hto : t ∉ dkeys (dict_of_positions p) \ dkeys c := by
    rw [Finset.mem_sdiff]
    exact fun h => hcur h.1
  have htc : t ∈ dkeys c \ dkeys (dict_of_positions p) := Finset.mem_sdiff.mpr ⟨hc, hcur⟩
  refine ⟨?_, ?_, ?_, ?_⟩
  · rw [run_cycle_signals, List.countP_append,
      countP_open_map (dict_of_positions p) t _
        (fun x hx => (Finset.mem_sdiff.mp (mem_canon_enum.mp hx)).1)
        (fun _ _ hq => dict_of_positions_coherent hq),
      countP_close_map_is_open, count_canon_enum, if_neg hto]
  · rw [run_cycle_signals, List.countP_append, countP_open_map_is_close,
      countP_close_map_is_close, count_canon_enum, if_pos htc]
  · rw [run_cycle_signals, List.count_append, count_exact_close_in_open_map,
      count_exact_close_map c t _ (canon_enum_nodup _) (mem_canon_enum.mpr htc)]
  · rw [run_cycle_cache_eq,
      dlookup_foldl_derase_mem t _ (mem_canon_enum.mpr htc)]

/-- A cycle in which ticket `t` is neither cached nor live publishes no
signal for `t` and leaves it out of the cache. -/
theorem run_cycle_absent (c : PosMap) (p : List Position) {t : Nat}
    (hcur : t ∉ dkeys (dict_of_positions p)) (hc : t ∉ dkeys c) :
    (run_cycle c (some p)).signals.countP (is_open_for t) = 0 ∧
    (run_cycle c (some p)).signals.countP (is_close_for t) = 0 ∧
    dlookup t (run_cycle c (some p)).cache = none := by
  have hto : t ∉ dkeys (dict_of_positions p) \ dkeys c := by
    rw [Finset.mem_sdiff]
    exact fun h => hcur h.1
  have htc : t ∉ dkeys c \ dkeys (dict_of_positions p) := by
    rw [Finset.mem_sdiff]
    exact fun h => hc h.1
  refine ⟨?_, ?_, ?_⟩
  · rw [run_cycle_signals, List.countP_append,
      countP_open_map (dict_of_positions p) t _
        (fun x hx => (Finset.mem_sdiff.mp (mem_canon_enum.mp hx)).1)
        (fun _ _ hq => dict_of_positions_coherent hq),
      countP_close_map_is_open, count_canon_enum, if_neg hto]
  · rw [run_cycle_signals, List.countP_append, countP_open_map_is_close,
      countP_close_map_is_close, count_canon_enum, if_neg htc]
  · rw [run_cycle_cache_eq,
      dlookup_foldl_derase_not_mem t _ (fun hx => htc (mem_canon_enum.mp hx)) _,
      dlookup_foldl_dset _ (fun hx => hto (mem_canon_enum.mp hx))]
    exact dlookup_eq_none_iff.mpr hc

/-- Once `t` is neither cached nor ever again live, no signal for `t`
is ever published. -/
theorem run_trace_gone_forever (t : Nat) :
    ∀ (polls : List (List Position)) (c : PosMap),
      (∀ p ∈ polls, t ∉ dkeys (dict_of_positions p)) → t ∉ dkeys c →
      (run_trace c polls).1.countP (is_open_for t) = 0 ∧
      (run_trace c polls).1.countP (is_close_for t) = 0 := by
  intro polls
  induction polls with
  | nil =>
    intro c _ _
    exact ⟨rfl, rfl⟩
  | cons p rest ih =>
    intro c hall hc
    have habs := run_cycle_absent c p (hall p (List.mem_cons_self p rest)) hc
    have hrest := ih (run_cycle c (some p)).cache
      (fun q hq => hall q (List.mem_cons_of_mem p hq))
      (dlookup_eq_none_iff.mp habs.2.2)
    simp only [run_trace]
    constructor
    · rw [List.countP_append, habs.1, hrest.1]
    · rw [List.countP_append, habs.2.1, hrest.2]

/-- While `t` stays cached with its startup data: no Open for `t` is
ever published; exactly one Close (with the startup symbol) is
published iff `t` eventually disappears from a poll. -/
theorem run_trace_present (t : Nat) (p₀ : Position) :
    ∀ (polls : List (List Position)) (c : PosMap),
      dlookup t c = some p₀ → no_reappear t polls = true →
      (run_trace c polls).1.countP (is_open_for t) = 0 ∧
      ((polls.any fun p => decide (t ∉ dkeys (dict_of_positions p))) = true →
        (run_trace c polls).1.countP (is_close_for t) = 1 ∧
        (run_trace c polls).1.count (Signal.Close t p₀.symbol) = 1) ∧
      ((polls.any fun p => decide (t ∉ dkeys (dict_of_positions p))) = false →
        (run_trace c polls).1.countP (is_close_for t) = 0) := by
  intro polls
  induction polls with
  | nil =>
    intro c _ _
    refine ⟨rfl, ?_, fun _ => rfl⟩
    intro h
    simp at h
  | cons p rest ih =>
    intro c hc hnr
    rw [no_reappear, Bool.and_eq_true_iff] at hnr
    have htc : t ∈ dkeys c := mem_dkeys_iff.mpr ⟨p₀, hc⟩
    by_cases hp : t ∈ dkeys (dict_of_positions p)
    · have hcyc := run_cycle_present c p hp htc
      have hc' : dlookup t (run_cycle c (some p)).cache = some p₀ := by
        rw [hcyc.2.2, hc]
      have ihr := ih (run_cycle c (some p)).cache hc' hnr.2
      have hany : (List.any (p :: rest) fun q => decide (t ∉ dkeys (dict_of_positions q))) =
          (List.any rest fun q => decide (t ∉ dkeys (dict_of_positions q))) := by
        rw [List.any_cons, show (decide (t ∉ dkeys (dict_of_positions p))) = false by
          simpa using hp, Bool.false_or]
      simp only [run_trace]
      refine ⟨?_, ?_, ?_⟩
      · rw [List.countP_append, hcyc.1, ihr.1]
      · intro h
        rw [hany] at h
        obtain ⟨h1, h2⟩ := ihr.2.1 h
        constructor
        · rw [List.countP_append, hcyc.2.1, h1]
        · rw [List.count_append, h2,
            Nat.le_zero.mp (le_trans (count_close_le_countP _ _ _)
              (le_of_eq hcyc.2.1))]
      · intro h
        rw [hany] at h
        rw [List.countP_append, hcyc.2.1, ihr.2.2 h]
    · have hcyc := run_cycle_gone c p hp htc
      have hrest_abs : ∀ q ∈ rest, t ∉ dkeys (dict_of_positions q) := by
        rcases Bool.or_eq_true_iff.mp hnr.1 with h1 | h2
        · exact absurd (of_decide_eq_true h1) hp
        · intro q hq
          exact of_decide_eq_true (List.all_eq_true.mp h2 q hq)
      have htail := run_trace_gone_forever t rest (run_cycle c (some p)).cache hrest_abs
        (dlookup_eq_none_iff.mp hcyc.2.2.2)
      have hsym : close_symbol c t = p₀.symbol := by
        rw [close_symbol, hc]
      simp only [run_trace]
      refine ⟨?_, ?_, ?_⟩
      · rw [List.countP_append, hcyc.1, htail.1]
      · intro _
        constructor
        · rw [List.countP_append, hcyc.2.1, htail.2]
        · rw [List.count_append, ← hsym, hcyc.2.2.1,
            Nat.le_zero.mp (le_trans (count_close_le_countP _ _ _)
              (le_of_eq htail.2))]
      · intro h
        rw [List.any_cons, show (decide (t ∉ dkeys (dict_of_positions p))) = true from
          decide_eq_true hp, Bool.true_or] at h
        exact absurd h (by decide)

/-- C10: a position already open at Master startup is cached during
initial population without publishing; assuming the broker never reuses
its ticket, no Open signal is ever published for it during the run, and
exactly one Close signal — carrying its cached (startup) symbol — is
published iff the ticket eventually disappears from a poll. -/
theorem startup_position_lifecycle (init : List Position) (polls : List (List Position))
    (t : Nat) (p₀ : Position)
    (h₀ : dlookup t (dict_of_positions init) = some p₀)
    (hnr : no_reappear t polls = true) :
    (master_run init polls).1.countP (is_open_for t) = 0 ∧
    ((polls.any fun p => decide (t ∉ dkeys (dict_of_positions p))) = true →
      (master_run init polls).1.countP (is_close_for t) = 1 ∧
      (master_run init polls).1.count (Signal.Close t p₀.symbol) = 1) ∧
    ((polls.any fun p => decide (t ∉ dkeys (dict_of_positions p))) = false →
      (master_run init polls).1.countP (is_close_for t) = 0) :=
  run_trace_present t p₀ polls (dict_of_positions init) h₀ hnr

/-- C10 witness: ticket 555 is open at startup, survives one poll, then
disappears: no Open is ever published and exactly one Close with the
startup symbol "EURUSD" is. -/
theorem startup_position_lifecycle_witness :
    (dlookup 555 (dict_of_positions [examplePos]) = some examplePos ∧
      no_reappear 555 [[examplePos], []] = true ∧
      ([[examplePos], []].any fun p => decide (555 ∉ dkeys (dict_of_positions p))) = true) ∧
    (master_run [examplePos] [[examplePos], []]).1.countP (is_open_for 555) = 0 ∧
    (master_run [examplePos] [[examplePos], []]).1.countP (is_close_for 555) = 1 ∧
    (master_run [examplePos] [[examplePos], []]).1.count
      (Signal.Close 555 examplePos.symbol) = 1 := by
  have h := startup_position_lifecycle [examplePos] [[examplePos], []] 555 examplePos
    rfl (by decide)
  have hany :
      ([[examplePos], []].any fun p => decide (555 ∉ dkeys (dict_of_positions p))) = true := by
    decide
  exact ⟨⟨rfl, by decide, hany⟩, h.1, (h.2.1 hany).1, (h.2.1 hany).2⟩

end CopyTrading
